import Mathlib

/-!
Verification of the RAGAS evaluation adapter
(`src/services/ark-evaluator/src/evaluator/oss_providers/ragas_adapter.py`).

Scores are modelled as rationals; Python dicts as association lists built
with Python-dict update semantics; the external evaluation engine, provider
detection and imports as an `EngineOutcome` parameter describing which of
the code's internal branches fires; exceptions as `Except`; the process
environment as `String → Option String`; Python object identity for metric
binding as addresses into an explicit heap.
-/

namespace RagasAdapter

/-- Python dict update `d[k] = v`: replace the value when the key is
present, append the pair otherwise. -/
def dictInsert (d : List (String × ℚ)) (k : String) (v : ℚ) : List (String × ℚ) :=
  if k ∈ d.map Prod.fst then
    d.map (fun p => if p.1 = k then (k, v) else p)
  else d ++ [(k, v)]

/-- The `scores = {}; for metric in metrics: scores[metric] = f(metric)`
loop pattern that every result-building path of the adapter uses. -/
def buildScores (f : String → ℚ) (metrics : List String) : List (String × ℚ) :=
  metrics.foldl (fun d m => dictInsert d m (f m)) []

/-- Python `s.lower()`, character by character. -/
def lowerStr (s : String) : String :=
  String.mk (s.data.map Char.toLower)

/-- Split a character list at whitespace, keeping the (possibly empty)
pieces between separators. -/
def splitWsAux (l : List Char) (acc : List Char) : List (List Char) :=
  match l with
  | [] => [acc.reverse]
  | c :: rest =>
    if c.isWhitespace then acc.reverse :: splitWsAux rest []
    else splitWsAux rest (c :: acc)

/-- Lower-cased whitespace tokens: Python `s.lower().split()` (split on
whitespace runs, dropping empty pieces). -/
def tokens (s : String) : List String :=
  ((splitWsAux (lowerStr s).data []).map String.mk).filter (fun t => t ≠ "")

/-- Python `set(s.lower().split())`. -/
def tokenSet (s : String) : Finset String := (tokens s).toFinset

/-- Substring containment on character lists: Python `needle in hay`. -/
def containsSub (hay needle : List Char) : Bool :=
  match hay with
  | [] => needle.isEmpty
  | _ :: t => needle.isPrefixOf hay || containsSub t needle

/-- Python `needle in hay` for strings. -/
def strContains (hay needle : String) : Bool :=
  containsSub hay.data needle.data

/-- Fallback `relevance` (lines 337-342): word-overlap of lower-cased
token sets over the input token-set size (denominator at least 1),
capped at 1.0. -/
def relevanceScore (input_text output_text : String) : ℚ :=
  min 1 (((tokenSet input_text ∩ tokenSet output_text).card : ℚ) /
    ((max (tokenSet input_text).card 1 : ℕ) : ℚ))

/-- Fallback `correctness` (lines 343-345): output length over 100,
capped at 1.0. -/
def correctnessScore (output_text : String) : ℚ :=
  min 1 ((output_text.length : ℚ) / 100)

/-- The fixed toxic word list (line 348). -/
def toxicWords : List String := ["hate", "stupid", "idiot", "kill", "die", "worst"]

/-- `sum(1 for word in toxic_words if word in output_text.lower())`
(line 349): substring containment against the lower-cased output. -/
def toxicCount (output_text : String) : ℕ :=
  (toxicWords.filter (fun w => strContains (lowerStr output_text) w)).length

/-- Fallback `toxicity` (lines 346-350). -/
def toxicityScore (output_text : String) : ℚ :=
  min 1 ((toxicCount output_text : ℚ) / 3)

/-- Per-metric fallback heuristic dispatch of `_fallback_evaluation`. -/
def fallbackScore (input_text output_text : String) (metric : String) : ℚ :=
  if metric = "relevance" then relevanceScore input_text output_text
  else if metric = "correctness" then correctnessScore output_text
  else if metric = "toxicity" then toxicityScore output_text
  else 1/2

/-- `RagasAdapter._fallback_evaluation` (lines 330-353). -/
def fallback_evaluation (input_text output_text : String) (metrics : List String) :
    List (String × ℚ) :=
  buildScores (fallbackScore input_text output_text) metrics

/-- A raw per-key engine value: RAGAS can return NaN for a metric. -/
inductive RagasValue
  | nan
  | num (q : ℚ)
deriving DecidableEq

/-- Which internal branch fires during one call: the `from ragas import`
raising ImportError; provider detection or LLM construction raising; the
`ev_ragas(...)` call raising; or the engine returning a raw result row
(`result_dict`, a partial map from engine-native keys). -/
inductive EngineOutcome
  | importFailure
  | providerFailure
  | engineFailure
  | success (raw : String → Option RagasValue)

/-- Exceptions escaping `_run_ragas_async`, as `evaluate` distinguishes
them (`except ImportError` vs `except Exception`). -/
inductive RagasError
  | importError
  | otherError
deriving DecidableEq

/-- The engine-native result key each caller metric name is read from in
the extraction chain of `_run_ragas_async` (lines 301-314); `none` for
`toxicity` and unknown names, whose branches never match. -/
def nativeKey (metric : String) : Option String :=
  if metric = "relevance" then some "answer_relevancy"
  else if metric = "correctness" then some "answer_correctness"
  else if metric = "similarity" then some "answer_similarity"
  else if metric = "faithfulness" then some "faithfulness"
  else if metric = "helpfulness" then some "answer_relevancy"
  else if metric = "clarity" then some "answer_similarity"
  else none

/-- Result normalization for one metric (lines 301-325): no native key or
key absent from the raw result gives 0.0; a NaN value gives 0.7; a
numeric value passes through unchanged and unclamped. -/
def normalizeScore (raw : String → Option RagasValue) (metric : String) : ℚ :=
  match nativeKey metric with
  | none => 0
  | some k =>
    match raw k with
    | none => 0
    | some RagasValue.nan => 7/10
    | some (RagasValue.num q) => q

/-- `RagasAdapter._run_ragas_async` (lines 113-328), as a function of the
branch the external world takes: import failure propagates an
ImportError; provider/LLM failure re-raises a generic exception; an
engine-level exception in `ev_ragas` is caught locally and yields the
uniform 0.5 dict (lines 286-293); otherwise the raw result row is
normalized per metric (lines 296-325). -/
def run_ragas_async (metrics : List String) (outcome : EngineOutcome) :
    Except RagasError (List (String × ℚ)) :=
  match outcome with
  | EngineOutcome.importFailure => Except.error RagasError.importError
  | EngineOutcome.providerFailure => Except.error RagasError.otherError
  | EngineOutcome.engineFailure => Except.ok (buildScores (fun _ => 1/2) metrics)
  | EngineOutcome.success raw => Except.ok (buildScores (normalizeScore raw) metrics)

/-- `RagasAdapter.evaluate` (lines 32-62): both the direct path and the
isolated-thread path run `_run_ragas_async` and re-raise its exception,
which the two `except` clauses convert to `_fallback_evaluation`. -/
def evaluate (input_text output_text : String) (metrics : List String)
    (outcome : EngineOutcome) : List (String × ℚ) :=
  match run_ragas_async metrics outcome with
  | Except.ok scores => scores
  | Except.error _ => fallback_evaluation input_text output_text metrics

/-- Updating a dict does not change its key list when the key is present,
and appends the key otherwise. -/
lemma map_fst_dictInsert (d : List (String × ℚ)) (k : String) (v : ℚ) :
    (dictInsert d k v).map Prod.fst =
      if k ∈ d.map Prod.fst then d.map Prod.fst else d.map Prod.fst ++ [k] := by
  unfold dictInsert
  split
  · simp only [List.map_map, if_pos ‹k ∈ d.map Prod.fst›]
    congr 1
    funext p
    by_cases h : p.1 = k <;> simp [h]
  · simp [if_neg ‹¬ k ∈ d.map Prod.fst›]

lemma mem_map_fst_dictInsert (d : List (String × ℚ)) (k v : _) (a : String) :
    a ∈ (dictInsert d k v).map Prod.fst ↔ a ∈ d.map Prod.fst ∨ a = k := by
  rw [map_fst_dictInsert]
  by_cases h : k ∈ d.map Prod.fst
  · simp only [if_pos h]
    constructor
    · exact Or.inl
    · rintro (ha | rfl)
      · exact ha
      · exact h
  · simp [if_neg h]

lemma values_dictInsert (d : List (String × ℚ)) (k : String) (v : ℚ) (f : String → ℚ)
    (hd : ∀ p ∈ d, p.2 = f p.1) (hv : v = f k) :
    ∀ p ∈ dictInsert d k v, p.2 = f p.1 := by
  intro p hp
  unfold dictInsert at hp
  split at hp
  · rcases List.mem_map.mp hp with ⟨q, hq, hqp⟩
    by_cases h : q.1 = k
    · simp only [if_pos h] at hqp
      subst hqp
      exact hv
    · simp only [if_neg h] at hqp
      subst hqp
      exact hd q hq
  · rcases List.mem_append.mp hp with h | h
    · exact hd p h
    · rcases List.mem_singleton.mp h with rfl
      exact hv

lemma keys_foldl_dictInsert (f : String → ℚ) (l : List String)
    (d : List (String × ℚ)) (a : String) :
    a ∈ ((l.foldl (fun d m => dictInsert d m (f m)) d).map Prod.fst) ↔
      a ∈ d.map Prod.fst ∨ a ∈ l := by
  induction l generalizing d with
  | nil => simp
  | cons m rest ih =>
    simp only [List.foldl_cons, ih, mem_map_fst_dictInsert, List.mem_cons]
    tauto

lemma mem_keys_buildScores (f : String → ℚ) (l : List String) (a : String) :
    a ∈ (buildScores f l).map Prod.fst ↔ a ∈ l := by
  unfold buildScores
  rw [keys_foldl_dictInsert]
  simp

lemma keysFinset_buildScores (f : String → ℚ) (l : List String) :
    ((buildScores f l).map Prod.fst).toFinset = l.toFinset := by
  ext a
  simp only [List.mem_toFinset]
  exact mem_keys_buildScores f l a

lemma values_foldl_dictInsert (f : String → ℚ) (l : List String)
    (d : List (String × ℚ)) (hd : ∀ p ∈ d, p.2 = f p.1) :
    ∀ p ∈ l.foldl (fun d m => dictInsert d m (f m)) d, p.2 = f p.1 := by
  induction l generalizing d with
  | nil => exact hd
  | cons m rest ih =>
    simp only [List.foldl_cons]
    exact ih _ (values_dictInsert d m (f m) f hd rfl)

lemma values_buildScores (f : String → ℚ) (l : List String) :
    ∀ p ∈ buildScores f l, p.2 = f p.1 :=
  values_foldl_dictInsert f l [] (by simp)

lemma lookup_of_values (d : List (String × ℚ)) (f : String → ℚ) (m : String)
    (hd : ∀ p ∈ d, p.2 = f p.1) (hm : m ∈ d.map Prod.fst) :
    d.lookup m = some (f m) := by
  induction d with
  | nil => simp at hm
  | cons p rest ih =>
    by_cases h : m = p.1
    · have hp2 : p.2 = f p.1 := hd p (List.mem_cons_self _ _)
      have hb : (m == p.1) = true := beq_iff_eq.mpr h
      simp [List.lookup, hb, hp2, h]
    · have hb : (m == p.1) = false := by
        simpa using h
      have hm' : m ∈ rest.map Prod.fst := by
        rcases List.mem_map.mp hm with ⟨q, hq, hqa⟩
        rcases List.mem_cons.mp hq with rfl | hq'
        · exact absurd hqa.symm h
        · exact List.mem_map.mpr ⟨q, hq', hqa⟩
      have hrec := ih (fun q hq => hd q (List.mem_cons_of_mem _ hq)) hm'
      simp [List.lookup, hb, hrec]

lemma lookup_buildScores (f : String → ℚ) (l : List String) (m : String)
    (hm : m ∈ l) :
    (buildScores f l).lookup m = some (f m) :=
  lookup_of_values _ f m (values_buildScores f l)
    ((mem_keys_buildScores f l m).mpr hm)

/-- The process environment `os.environ`: a partial map from variable
names to values. -/
abbrev Env : Type := String → Option String

/-- `os.environ[k] = v`. -/
def envSet (e : Env) (k v : String) : Env :=
  fun x => if x = k then some v else e x

/-- `os.environ.pop(k, None)`: removes the variable entirely. -/
def envPop (e : Env) (k : String) : Env :=
  fun x => if x = k then none else e x

/-- The params-key / environment-variable pairs `_run_ragas_sync`
conditionally sets (lines 76-85), in program order. -/
def isolationVars : List (String × String) :=
  [("langfuse.azure_api_key", "AZURE_OPENAI_API_KEY"),
   ("langfuse.azure_endpoint", "AZURE_OPENAI_ENDPOINT"),
   ("langfuse.model_version", "OPENAI_API_VERSION")]

/-- The set-up phase of `_run_ragas_sync` (lines 75-85): for each params
key present, set the corresponding environment variable and record it in
`env_vars_set`. Returns the mutated environment and the recorded list. -/
def setIsolationEnv (params : List (String × String)) (e : Env) :
    Env × List String :=
  isolationVars.foldl
    (fun acc pv =>
      match params.lookup pv.1 with
      | some v => (envSet acc.1 pv.2 v, acc.2 ++ [pv.2])
      | none => acc)
    (e, [])

/-- The net effect of `_run_ragas_sync` (lines 64-111) on the process
environment: set the provider variables from params, run the inner
evaluation (which either returns or raises - `innerRaises` selects the
exit path; the `finally` block runs on both), then
`os.environ.pop(var, None)` each variable recorded in `env_vars_set`. -/
def run_ragas_sync_env (params : List (String × String)) (e : Env)
    (innerRaises : Bool) : Env :=
  let (e1, vars) := setIsolationEnv params e
  let _ := innerRaises
  vars.foldl envPop e1

/-- An engine metric object's mutable state: the `.llm` and `.embeddings`
attributes assigned during binding (lines 220-226) and whether
`.init(run_config)` ran (line 230). LLM/embeddings handles are
abstracted as numeric identities. -/
structure MetricObj where
  llm : Option Nat
  embeddings : Option Nat
  initialized : Bool
deriving DecidableEq

/-- A heap of metric objects; addresses are list indices, allocation
appends. -/
abbrev Heap : Type := List MetricObj

/-- What `ragas_metric_map[metric]` holds (lines 190-217): either a
metric class (callable with no `name` attribute, instantiated fresh per
call, line 214) or an already-constructed module-level instance reused as
is (line 217). -/
inductive MetricSource
  | metricClass
  | metricInstance (addr : Nat)
deriving DecidableEq

/-- Binding one metric (lines 211-232): obtain the instance (fresh
allocation for a class, the existing address for an instance), then
mutate it in place: set `.llm`, set `.embeddings` only when an embeddings
handle exists, and mark it initialized. Returns the new heap and the
bound address. -/
def bindMetric (src : MetricSource) (llm : Nat) (emb : Option Nat) (h : Heap) :
    Heap × Nat :=
  let p : Heap × Nat :=
    match src with
    | MetricSource.metricClass =>
        (h ++ [⟨none, none, false⟩], h.length)
    | MetricSource.metricInstance a => (h, a)
  match p.1[p.2]? with
  | none => p
  | some o =>
      (List.set p.1 p.2
        ⟨some llm, if emb.isSome then emb else o.embeddings, true⟩, p.2)

/-- The metric-binding loop of one evaluation call (lines 200-232):
bind each requested metric source in order, threading the heap. Returns
the final heap and the addresses of the bound instances. -/
def bindMetrics (srcs : List MetricSource) (llm : Nat) (emb : Option Nat)
    (h : Heap) : Heap × List Nat :=
  match srcs with
  | [] => (h, [])
  | s :: rest =>
    let p1 := bindMetric s llm emb h
    let p2 := bindMetrics rest llm emb p1.1
    (p2.1, p1.2 :: p2.2)

/-- The single evaluation record built for the engine (lines 264-275). -/
structure DatasetRecord where
  question : String
  answer : String
  contexts : List String
  ground_truth : String
  user_input : String
  response : String
  retrieved_contexts : List String
  reference : String
deriving DecidableEq

/-- `dataset.append({...})` (lines 264-275): the one record handed to
`Dataset.from_list`; `ground_truth` and `reference` are both set to
`output_text`. -/
def buildDataset (input_text output_text : String) (contexts : List String) :
    DatasetRecord :=
  ⟨input_text, output_text, contexts, output_text,
   input_text, output_text, contexts, output_text⟩

/-- C1: for every input, output, requested metric list and every internal
failure tier (import failure, provider failure, engine failure, or a raw
engine result with per-metric invalidity), `evaluate` returns a score dict
(totality of the Lean function models that no exception reaches the
caller) whose key set equals exactly the set of requested metric names. -/
theorem evaluate_keys_exact (input_text output_text : String)
    (metrics : List String) (outcome : EngineOutcome) :
    ((evaluate input_text output_text metrics outcome).map Prod.fst).toFinset
      = metrics.toFinset := by
  cases outcome <;> exact keysFinset_buildScores _ metrics

/-- C5: when the engine's dependencies cannot be imported, `evaluate`
returns exactly the Fallback Scorer's deterministic output for the same
input, output and metrics, metric for metric. -/
theorem importFailure_eq_fallback_scorer (input_text output_text : String)
    (metrics : List String) (m : String) (hm : m ∈ metrics) :
    evaluate input_text output_text metrics EngineOutcome.importFailure
      = fallback_evaluation input_text output_text metrics ∧
    (evaluate input_text output_text metrics EngineOutcome.importFailure).lookup m
      = some (fallbackScore input_text output_text m) :=
  ⟨rfl, lookup_buildScores _ metrics m hm⟩

/-- Witness for C5 at the spec's unknown-metric scenario. -/
theorem importFailure_eq_fallback_scorer_witness :
    ("banana" ∈ (["banana"] : List String)) ∧
    (evaluate "i" "o" ["banana"] EngineOutcome.importFailure
      = fallback_evaluation "i" "o" ["banana"] ∧
    (evaluate "i" "o" ["banana"] EngineOutcome.importFailure).lookup "banana"
      = some (fallbackScore "i" "o" "banana")) :=
  ⟨by simp, importFailure_eq_fallback_scorer "i" "o" ["banana"] "banana" (by simp)⟩

/-- C3: when the engine invocation itself raises, every requested metric
gets the uniform neutral score 0.5; this tier is distinct from the
Fallback Scorer's heuristics (at the same input, import failure produces
a different dict). -/
theorem engineFailure_uniform_half (input_text output_text : String)
    (metrics : List String) (m : String) (hm : m ∈ metrics) :
    (evaluate input_text output_text metrics EngineOutcome.engineFailure).lookup m
      = some (1/2) ∧
    evaluate "q" "ok" ["correctness"] EngineOutcome.engineFailure ≠
      evaluate "q" "ok" ["correctness"] EngineOutcome.importFailure := by
  constructor
  · exact lookup_buildScores (fun _ => 1/2) metrics m hm
  · intro hco
    have h1 : (evaluate "q" "ok" ["correctness"]
        EngineOutcome.engineFailure).lookup "correctness" = some (1/2) :=
      lookup_buildScores (fun _ => 1/2) ["correctness"] "correctness" (by simp)
    have h2 : (evaluate "q" "ok" ["correctness"]
        EngineOutcome.importFailure).lookup "correctness"
        = some (fallbackScore "q" "ok" "correctness") :=
      lookup_buildScores (fallbackScore "q" "ok") ["correctness"] "correctness"
        (by simp)
    rw [hco, h2] at h1
    have h3 : fallbackScore "q" "ok" "correctness" = (1:ℚ)/2 := Option.some.inj h1
    have h4 : fallbackScore "q" "ok" "correctness" = min 1 ((2:ℚ)/100) := rfl
    rw [h4, min_def] at h3
    norm_num at h3

/-- Witness for C3. -/
theorem engineFailure_uniform_half_witness :
    ("similarity" ∈ (["similarity"] : List String)) ∧
    ((evaluate "in" "out" ["similarity"]
        EngineOutcome.engineFailure).lookup "similarity" = some (1/2) ∧
    evaluate "q" "ok" ["correctness"] EngineOutcome.engineFailure ≠
      evaluate "q" "ok" ["correctness"] EngineOutcome.importFailure) :=
  ⟨by simp, engineFailure_uniform_half "in" "out" ["similarity"] "similarity" (by simp)⟩

/-- C4: result normalization, per requested metric with an engine-native
key: an absent key yields 0.0, a present NaN yields exactly 0.7, and a
numeric value passes through unchanged and unclamped; each metric's score
depends only on the raw value under its own key, so sibling metrics are
untouched. -/
theorem normalization_tiers (input_text output_text : String)
    (metrics : List String) (raw : String → Option RagasValue) (m k : String)
    (hm : m ∈ metrics) (hk : nativeKey m = some k) :
    (raw k = none →
      (evaluate input_text output_text metrics
        (EngineOutcome.success raw)).lookup m = some 0) ∧
    (raw k = some RagasValue.nan →
      (evaluate input_text output_text metrics
        (EngineOutcome.success raw)).lookup m = some (7/10)) ∧
    (∀ q : ℚ, raw k = some (RagasValue.num q) →
      (evaluate input_text output_text metrics
        (EngineOutcome.success raw)).lookup m = some q) := by
  have hl : (evaluate input_text output_text metrics
      (EngineOutcome.success raw)).lookup m = some (normalizeScore raw m) :=
    lookup_buildScores (normalizeScore raw) metrics m hm
  refine ⟨fun h0 => ?_, fun hn => ?_, fun q hq => ?_⟩ <;>
    rw [hl] <;> simp [normalizeScore, hk, *]

/-- An engine result row with no keys at all. -/
def rawNone : String → Option RagasValue := fun _ => none

/-- Witness for C4: a raw result lacking the `answer_relevancy` key gives
`relevance` the missing-key sentinel 0.0. -/
theorem normalization_tiers_witness :
    ("relevance" ∈ (["relevance"] : List String)) ∧
    nativeKey "relevance" = some "answer_relevancy" ∧
    rawNone "answer_relevancy" = none ∧
    (evaluate "" "" ["relevance"]
      (EngineOutcome.success rawNone)).lookup "relevance" = some 0 :=
  ⟨by simp, rfl, rfl,
    (normalization_tiers "" "" ["relevance"] rawNone "relevance"
      "answer_relevancy" (by simp) rfl).1 rfl⟩

/-- C10: the single evaluation record handed to the engine sets both
ground-truth fields (`ground_truth`, `reference`) to `output_text`
itself, for every input; reference-based metrics therefore compare the
output against a copy of the output. -/
theorem dataset_reference_is_output (input_text output_text : String)
    (contexts : List String) :
    (buildDataset input_text output_text contexts).ground_truth = output_text ∧
    (buildDataset input_text output_text contexts).reference = output_text ∧
    (buildDataset input_text output_text contexts).answer = output_text ∧
    (buildDataset input_text output_text contexts).response = output_text :=
  ⟨rfl, rfl, rfl, rfl⟩

/-- C7: the fallback score for `relevance` is the lower-cased
whitespace-token overlap of input and output over the input token-set
size (denominator at least 1), capped at 1.0; consequently
relevance(X,X) is at least relevance(X,Y) whenever Y is token-disjoint
from X. -/
theorem relevance_fallback_formula (input_text output_text Y : String)
    (metrics : List String) (hm : "relevance" ∈ metrics)
    (hd : Disjoint (tokenSet input_text) (tokenSet Y)) :
    (fallback_evaluation input_text output_text metrics).lookup "relevance"
      = some (min 1 (((tokenSet input_text ∩ tokenSet output_text).card : ℚ) /
          ((max (tokenSet input_text).card 1 : ℕ) : ℚ))) ∧
    relevanceScore input_text Y ≤ relevanceScore input_text input_text := by
  constructor
  · exact lookup_buildScores (fallbackScore input_text output_text) metrics
      "relevance" hm
  · have hzero : relevanceScore input_text Y = 0 := by
      unfold relevanceScore
      rw [Finset.disjoint_iff_inter_eq_empty.mp hd]
      simp
    rw [hzero]
    unfold relevanceScore
    exact le_min (by norm_num) (by positivity)

/-- Witness for C7: identical text scores 1, a token-disjoint pair 0. -/
theorem relevance_fallback_formula_witness :
    ("relevance" ∈ (["relevance"] : List String)) ∧
    Disjoint (tokenSet "a b") (tokenSet "c d") ∧
    ((fallback_evaluation "a b" "a b" ["relevance"]).lookup "relevance"
      = some (min 1 (((tokenSet "a b" ∩ tokenSet "a b").card : ℚ) /
          ((max (tokenSet "a b").card 1 : ℕ) : ℚ))) ∧
    relevanceScore "a b" "c d" ≤ relevanceScore "a b" "a b") :=
  ⟨by simp, by decide,
    relevance_fallback_formula "a b" "a b" "c d" ["relevance"] (by simp) (by decide)⟩

/-- C8: the fallback score for `correctness` is the output character
length over 100 capped at 1.0; it is monotone non-decreasing in output
length and equals exactly 1 for every output of length at least 100. -/
theorem correctness_fallback_formula (input_text output_text o1 o2 : String)
    (metrics : List String) (hm : "correctness" ∈ metrics)
    (hlen : o1.length ≤ o2.length) :
    (fallback_evaluation input_text output_text metrics).lookup "correctness"
      = some (min 1 ((output_text.length : ℚ) / 100)) ∧
    correctnessScore o1 ≤ correctnessScore o2 ∧
    (100 ≤ output_text.length →
      (fallback_evaluation input_text output_text metrics).lookup "correctness"
        = some 1) := by
  have hl : (fallback_evaluation input_text output_text metrics).lookup
      "correctness" = some (fallbackScore input_text output_text "correctness") :=
    lookup_buildScores (fallbackScore input_text output_text) metrics
      "correctness" hm
  refine ⟨hl, ?_, fun h100 => ?_⟩
  · unfold correctnessScore
    have hdiv : (o1.length : ℚ) / 100 ≤ (o2.length : ℚ) / 100 := by
      apply div_le_div_of_nonneg_right ?_ (by norm_num)
      exact_mod_cast hlen
    exact min_le_min le_rfl hdiv
  · rw [hl]
    have h1 : (1:ℚ) ≤ (output_text.length : ℚ) / 100 := by
      rw [le_div_iff₀ (by norm_num)]
      rw [one_mul]
      exact_mod_cast h100
    have h2 : fallbackScore input_text output_text "correctness" = 1 := by
      show min 1 ((output_text.length : ℚ) / 100) = 1
      exact min_eq_left h1
    rw [h2]

/-- A 120-character output to exercise saturation. -/
def longOutput : String := String.mk (List.replicate 120 'x')

/-- Witness for C8: monotone on a shorter/longer pair and saturated at a
120-character output. -/
theorem correctness_fallback_formula_witness :
    ("correctness" ∈ (["correctness"] : List String)) ∧
    String.length "a" ≤ String.length "ab" ∧
    (100:ℕ) ≤ longOutput.length ∧
    correctnessScore "a" ≤ correctnessScore "ab" ∧
    (fallback_evaluation "q" longOutput ["correctness"]).lookup "correctness"
      = some 1 :=
  ⟨by simp, by decide, by decide,
    (correctness_fallback_formula "q" longOutput "a" "ab" ["correctness"]
      (by simp) (by decide)).2.1,
    (correctness_fallback_formula "q" longOutput "a" "ab" ["correctness"]
      (by simp) (by decide)).2.2 (by decide)⟩

/-- Token-based toxic-match count following the claim's wording ("matches
of the fixed toxic-token list against the lower-cased output as tokens"),
stated only to compare against the source's substring-based count. -/
def toxicTokenCount (output_text : String) : ℕ :=
  (toxicWords.filter (fun w => w ∈ tokens output_text)).length

/-- C9 counterexample: on output "diet" the code scores toxicity 1/3
(the substring "die" occurs inside "diet"), while the claim's token-based
count is 0 and would give score 0. -/
theorem toxicity_token_claim_counterexample :
    (fallback_evaluation "" "diet" ["toxicity"]).lookup "toxicity"
      = some (1/3) ∧
    toxicTokenCount "diet" = 0 ∧
    min 1 ((toxicTokenCount "diet" : ℚ) / 3) = 0 ∧
    ((1:ℚ)/3) ≠ 0 := by
  refine ⟨?_, by decide, ?_, by norm_num⟩
  · have hl : (fallback_evaluation "" "diet" ["toxicity"]).lookup "toxicity"
        = some (fallbackScore "" "diet" "toxicity") :=
      lookup_buildScores (fallbackScore "" "diet") ["toxicity"] "toxicity" (by simp)
    rw [hl]
    have h2 : toxicityScore "diet" = 1/3 := by
      unfold toxicityScore
      rw [show toxicCount "diet" = 1 from by decide, min_def]
      norm_num
    exact congrArg some h2
  · rw [show toxicTokenCount "diet" = 0 from by decide]
    norm_num

/-- C9 amended: the fallback score for `toxicity` is min(1, n/3) where n
counts the toxic list entries occurring as substrings of the lower-cased
output (not as whitespace tokens); the claim's concrete scenario still
holds: "I hate this, you idiot" scores 2/3. -/
theorem toxicity_fallback_substring (input_text output_text : String)
    (metrics : List String) (hm : "toxicity" ∈ metrics) :
    (fallback_evaluation input_text output_text metrics).lookup "toxicity"
      = some (min 1 ((toxicCount output_text : ℚ) / 3)) ∧
    (fallback_evaluation "question" "I hate this, you idiot"
      ["toxicity"]).lookup "toxicity" = some (2/3) := by
  constructor
  · exact lookup_buildScores (fallbackScore input_text output_text) metrics
      "toxicity" hm
  · have hl : (fallback_evaluation "question" "I hate this, you idiot"
        ["toxicity"]).lookup "toxicity"
        = some (fallbackScore "question" "I hate this, you idiot" "toxicity") :=
      lookup_buildScores (fallbackScore "question" "I hate this, you idiot")
        ["toxicity"] "toxicity" (by simp)
    rw [hl]
    have h2 : toxicityScore "I hate this, you idiot" = 2/3 := by
      unfold toxicityScore
      rw [show toxicCount "I hate this, you idiot" = 2 from by decide, min_def]
      norm_num
    exact congrArg some h2

/-- Witness for C9's amended theorem. -/
theorem toxicity_fallback_substring_witness :
    ("toxicity" ∈ (["toxicity"] : List String)) ∧
    ((fallback_evaluation "x" "y" ["toxicity"]).lookup "toxicity"
      = some (min 1 ((toxicCount "y" : ℚ) / 3)) ∧
    (fallback_evaluation "question" "I hate this, you idiot"
      ["toxicity"]).lookup "toxicity" = some (2/3)) :=
  ⟨by simp, toxicity_fallback_substring "x" "y" ["toxicity"] (by simp)⟩

/-- An environment in which the Azure key variable already has a value
before the call. -/
def envBefore : Env :=
  fun k => if k = "AZURE_OPENAI_API_KEY" then some "old" else none

/-- Params that make the isolated path set the Azure key variable. -/
def paramsAzure : List (String × String) := [("langfuse.azure_api_key", "new")]

/-- C2 counterexample: the isolated path's cleanup uses
`os.environ.pop(var, None)`, which removes the variable instead of
restoring its previous value; a variable that held "old" before the call
is gone afterwards, on the success exit and the raising exit alike. -/
theorem env_restore_counterexample :
    envBefore "AZURE_OPENAI_API_KEY" = some "old" ∧
    run_ragas_sync_env paramsAzure envBefore false "AZURE_OPENAI_API_KEY" = none ∧
    run_ragas_sync_env paramsAzure envBefore true "AZURE_OPENAI_API_KEY" = none := by
  refine ⟨rfl, ?_, ?_⟩ <;> rfl

/-- C2 amended: the isolated path removes (unsets) every variable it set,
on every exit path; the process environment is restored exactly when the
three provider variables were unset before the call, and variables other
than those three are never touched. -/
theorem env_removed_on_all_paths (params : List (String × String)) (e : Env)
    (innerRaises : Bool) (k : String)
    (h1 : e "AZURE_OPENAI_API_KEY" = none)
    (h2 : e "AZURE_OPENAI_ENDPOINT" = none)
    (h3 : e "OPENAI_API_VERSION" = none) :
    run_ragas_sync_env params e innerRaises k = e k := by
  unfold run_ragas_sync_env setIsolationEnv isolationVars
  rcases hl1 : params.lookup "langfuse.azure_api_key" with _ | v1 <;>
  rcases hl2 : params.lookup "langfuse.azure_endpoint" with _ | v2 <;>
  rcases hl3 : params.lookup "langfuse.model_version" with _ | v3 <;>
    simp only [List.foldl_cons, List.foldl_nil, hl1, hl2, hl3, List.nil_append,
      List.cons_append, List.append_nil, envSet, envPop] <;>
    (try split_ifs) <;> simp_all

/-- An initially empty environment. -/
def envEmpty : Env := fun _ => none

/-- Witness for C2's amended theorem: with the provider variables unset
beforehand, a raising isolated run leaves the environment unchanged at
the key it set. -/
theorem env_removed_on_all_paths_witness :
    envEmpty "AZURE_OPENAI_API_KEY" = none ∧
    run_ragas_sync_env paramsAzure envEmpty true "AZURE_OPENAI_API_KEY"
      = envEmpty "AZURE_OPENAI_API_KEY" :=
  ⟨rfl, env_removed_on_all_paths paramsAzure envEmpty true
    "AZURE_OPENAI_API_KEY" rfl rfl rfl⟩

lemma set_concat (h : Heap) (o o' : MetricObj) :
    (h ++ [o]).set h.length o' = h ++ [o'] := by
  induction h with
  | nil => rfl
  | cons x t ih =>
    show x :: ((t ++ [o]).set t.length o') = x :: (t ++ [o'])
    rw [ih]

lemma getElem?_concat (h : Heap) (o : MetricObj) :
    (h ++ [o])[h.length]? = some o := by
  induction h with
  | nil => rfl
  | cons x t ih =>
    simp [List.cons_append, List.getElem?_cons_succ, ih]

/-- Binding a metric class allocates a fresh object at the end of the
heap and returns its address. -/
lemma bindMetric_class (llm : Nat) (emb : Option Nat) (h : Heap) :
    bindMetric MetricSource.metricClass llm emb h
      = (h ++ [⟨some llm, emb, true⟩], h.length) := by
  unfold bindMetric
  simp only [getElem?_concat, set_concat]
  cases emb <;> rfl

/-- The module-level shared metric instance, as the heap before the first
call: one pre-existing object at address 0, not yet bound. -/
def sharedMetricHeap : Heap := [⟨none, none, false⟩]

/-- C6 counterexample: when the engine metric is a pre-built instance
(as `answer_relevancy` and its siblings are), binding mutates the
pre-existing shared object in place, and a later call binds the very
same address, observing the first call's mutation. -/
theorem shared_instance_binding_counterexample :
    (bindMetrics [MetricSource.metricInstance 0] 1 none sharedMetricHeap).1
      = [⟨some 1, none, true⟩] ∧
    (bindMetrics [MetricSource.metricInstance 0] 1 none sharedMetricHeap).1[0]?
      ≠ sharedMetricHeap[0]? ∧
    (bindMetrics [MetricSource.metricInstance 0] 2 none
        (bindMetrics [MetricSource.metricInstance 0] 1 none
          sharedMetricHeap).1).2 = [0] := by
  decide

/-- C6 amended: the binding step constructs fresh instances and leaves
every pre-existing heap object untouched exactly when each engine metric
is supplied as a class to instantiate; then the prior heap survives as an
unchanged prefix and every bound address is a fresh one. -/
theorem fresh_binding_preserves_heap (srcs : List MetricSource) (llm : Nat)
    (emb : Option Nat) (h : Heap)
    (hc : ∀ s ∈ srcs, s = MetricSource.metricClass) :
    (bindMetrics srcs llm emb h).1.take h.length = h ∧
    ∀ a ∈ (bindMetrics srcs llm emb h).2, h.length ≤ a := by
  induction srcs generalizing h with
  | nil => simp [bindMetrics]
  | cons s rest ih =>
    have hs : s = MetricSource.metricClass := hc s (List.mem_cons_self _ _)
    subst hs
    have hrest : ∀ s ∈ rest, s = MetricSource.metricClass :=
      fun s hsr => hc s (List.mem_cons_of_mem _ hsr)
    have hb := bindMetric_class llm emb h
    obtain ⟨ih1, ih2⟩ := ih (h ++ [⟨some llm, emb, true⟩]) hrest
    have hlen : h.length ≤ (h ++ [(⟨some llm, emb, true⟩ : MetricObj)]).length := by
      simp
    constructor
    · show (bindMetrics rest llm emb
          (bindMetric MetricSource.metricClass llm emb h).1).1.take h.length = h
      rw [hb]
      calc (bindMetrics rest llm emb (h ++ [⟨some llm, emb, true⟩])).1.take h.length
          = ((bindMetrics rest llm emb
              (h ++ [⟨some llm, emb, true⟩])).1.take
              (h ++ [(⟨some llm, emb, true⟩ : MetricObj)]).length).take h.length := by
            rw [List.take_take, Nat.min_eq_left hlen]
        _ = (h ++ [(⟨some llm, emb, true⟩ : MetricObj)]).take h.length := by rw [ih1]
        _ = h := List.take_left h _
    · intro a ha
      have ha' : a ∈ (bindMetric MetricSource.metricClass llm emb h).2 ::
          (bindMetrics rest llm emb
            (bindMetric MetricSource.metricClass llm emb h).1).2 := ha
      rw [hb] at ha'
      rcases List.mem_cons.mp ha' with rfl | hmem
      · exact le_refl _
      · exact le_trans hlen (ih2 a hmem)

/-- A heap with one pre-existing, already-bound object. -/
def preexistingHeap : Heap := [⟨some 5, some 6, true⟩]

/-- Witness for C6's amended theorem: a class-sourced binding leaves the
pre-existing heap object untouched as a prefix. -/
theorem fresh_binding_preserves_heap_witness :
    (bindMetrics [MetricSource.metricClass] 1 none preexistingHeap).1.take
        preexistingHeap.length = preexistingHeap :=
  (fresh_binding_preserves_heap [MetricSource.metricClass] 1 none
    preexistingHeap (by decide)).1

end RagasAdapter
